import Mathlib

/-!
A shallow embedding of the Ptycography LED-matrix Arduino program
(`src/Arduino/Ptycography_LED_matrix_program/libraries/`): the
`PatternGenerator`, `LEDMatrix`, `CameraManager` and `IdleManager` classes,
together with theorems settling the specification claims about them.

Modelling conventions:
* C `int` values that appear as caller-supplied parameters are embedded as `ℤ`;
  loop counters and array indices, which are nonnegative throughout the source,
  are embedded as `ℕ`.
* C `float` arithmetic is embedded as exact rational arithmetic (`ℚ`); the one
  use of `sqrt` (ring-membership tests) is encoded by the algebraically
  equivalent squared-distance inequalities.
* The caller-allocated `bool**` pattern buffer is embedded as a total function
  `ℕ → ℕ → Bool` (row index first, matching `pattern[y][x]`); cells outside the
  matrix bounds are never touched by the source loops.
-/

namespace Ptycography

/-! ### Pattern grids (`bool** pattern`, row-major: `pattern[y][x]`) -/

/-- The caller-allocated pattern buffer: `grid y x` is `pattern[y][x]`. -/
def Grid := ℕ → ℕ → Bool

/-- A single `pattern[y][x] = b` store. -/
def setCell (g : Grid) (y x : ℕ) (b : Bool) : Grid :=
  fun y0 x0 => if y0 = y ∧ x0 = x then b else g y0 x0

/-- One row of the clearing loop `for (x...) pattern[y][x] = false`. -/
def clearRow (g : Grid) (y w : ℕ) : Grid :=
  (List.range w).foldl (fun g x => setCell g y x false) g

/-- The clearing prologue shared by every generator:
`for (y...) for (x...) pattern[y][x] = false`. -/
def clearGrid (w h : ℕ) (g : Grid) : Grid :=
  (List.range h).foldl (fun g y => clearRow g y w) g

/-! ### `PatternGenerator` -/

/-- The `PatternGenerator` object state: `_width`, `_height`, `_physicalSizeMM`
and `_ledPitchMM` as set by the constructor.  The dimensions are nonnegative in
every construction in the program (the sole instantiation is 64×64). -/
structure PatternGenerator where
  width : ℕ
  height : ℕ
  physicalSizeMM : ℚ
  ledPitchMM : ℚ

/-- The 64×64 generator instantiated by the program
(`MATRIX_WIDTH`, `MATRIX_HEIGHT`, `MATRIX_PHYSICAL_SIZE_MM`, `LED_PITCH_MM`). -/
def pg64 : PatternGenerator := ⟨64, 64, 128, 2⟩

/-- Embeds `PatternGenerator::getCenterX` (integer division). -/
def getCenterX (pg : PatternGenerator) : ℕ := pg.width / 2

/-- Embeds `PatternGenerator::getCenterY` (integer division). -/
def getCenterY (pg : PatternGenerator) : ℕ := pg.height / 2

/-- Embeds `PatternGenerator::isValidCoordinate` on `int` coordinates. -/
def isValidCoordinate (pg : PatternGenerator) (x y : ℤ) : Bool :=
  decide (0 ≤ x ∧ x < pg.width ∧ 0 ≤ y ∧ y < pg.height)

/-- Embeds `PatternGenerator::calculateLEDSkip`:
`skip = round(desiredSpacingMM / _ledPitchMM)`, clamped to a minimum of 1.
C's `round` rounds half away from zero while Lean's `round` rounds half up;
the two differ only at negative half-integers, which the clamp sends to 1
either way. -/
def calculateLEDSkip (pg : PatternGenerator) (desiredSpacingMM : ℚ) : ℤ :=
  let skip := round (desiredSpacingMM / pg.ledPitchMM)
  if skip < 1 then 1 else skip

/-! ### `PatternGenerator::generateGrid`

The C loops `for (y = 0; y < h; y += spacingY)` / `for (x = 0; x < w; x += spacingX)`
run only after the guard `spacingX < 1 || spacingY < 1` has failed, so both
strides are at least 1; the stride is passed here as `s1 + 1` (`s1` = stride
minus one), which makes termination structural in `w - x` / `h - y`. -/

/-- Inner column loop of `generateGrid` at row `y`, from column `x` with
stride `s1 + 1`; the state is the grid plus the running `ledCount`.  The loop
body is the `isValidCoordinate` test followed by the store and count. -/
def gridFillRow (w h y s1 : ℕ) (x : ℕ) (g : Grid) (c : ℕ) : Grid × ℕ :=
  if x < w then
    if x < w ∧ y < h then
      gridFillRow w h y s1 (x + (s1 + 1)) (setCell g y x true) (c + 1)
    else
      gridFillRow w h y s1 (x + (s1 + 1)) g c
  else (g, c)
termination_by w - x
decreasing_by all_goals omega

/-- Outer row loop of `generateGrid`, from row `y` with stride `s1y + 1`. -/
def gridFillAll (w h s1x s1y : ℕ) (y : ℕ) (g : Grid) (c : ℕ) : Grid × ℕ :=
  if y < h then
    gridFillAll w h s1x s1y (y + (s1y + 1))
      (gridFillRow w h y s1x 0 g c).1 (gridFillRow w h y s1x 0 g c).2
  else (g, c)
termination_by h - y
decreasing_by omega

/-- Embeds `PatternGenerator::generateGrid`: clear, reject strides below 1, fill the
lattice, and succeed iff at least one LED was lit. -/
def generateGrid (pg : PatternGenerator) (g : Grid) (spacingX spacingY : ℤ) :
    Bool × Grid :=
  let g := clearGrid pg.width pg.height g
  if spacingX < 1 ∨ spacingY < 1 then (false, g)
  else
    let st := gridFillAll pg.width pg.height (spacingX.toNat - 1)
      (spacingY.toNat - 1) 0 g 0
    (decide (0 < st.2), st.1)

/-! ### `PatternGenerator::generateConcentricRings`

`calculateDistance` computes `sqrt(dx*dx + dy*dy)` as a `float`; we keep the
exact squared distance instead, and the ring test `abs(distance - r) < 1.0`
is encoded by the equivalent inequalities on the square: for real `s ≥ 0`,
`|sqrt s - r| < 1` holds iff `(r < 1 ∨ (r-1)² < s) ∧ (0 < r+1 ∧ s < (r+1)²)`. -/

/-- The square of `PatternGenerator::calculateDistance` (exact, in LED units). -/
def calculateDistanceSq (x1 y1 x2 y2 : ℤ) : ℤ :=
  (x2 - x1) ^ 2 + (y2 - y1) ^ 2

/-- Embeds `abs(distance - r) < 1.0` where `distance = sqrt s`, encoded on squares. -/
def nearRadius (s : ℤ) (r : ℚ) : Bool :=
  decide ((r < 1 ∨ (r - 1) ^ 2 < (s : ℚ)) ∧ (0 < r + 1 ∧ (s : ℚ) < (r + 1) ^ 2))

/-- Body of the double loop of `generateConcentricRings` at cell `(x, y)`:
skip off-stride cells, light the cell when it lies within one LED unit of one
of the three rings. -/
def ringsCellStep (inner middle outer : ℚ) (skip cX cY y : ℕ)
    (st : Grid × ℕ) (x : ℕ) : Grid × ℕ :=
  if (x + y) % skip ≠ 0 then st
  else
    let s := calculateDistanceSq x y cX cY
    if nearRadius s inner ∨ nearRadius s middle ∨ nearRadius s outer then
      (setCell st.1 y x true, st.2 + 1)
    else st

/-- The double loop of `generateConcentricRings` over all cells. -/
def ringsFill (w h : ℕ) (inner middle outer : ℚ) (skip cX cY : ℕ)
    (g : Grid) : Grid × ℕ :=
  (List.range h).foldl
    (fun st y => (List.range w).foldl (ringsCellStep inner middle outer skip cX cY y) st)
    (g, 0)

/-- Embeds `PatternGenerator::generateConcentricRings`: clear, compute the skip
stride and center, reject an outer radius that reaches past the panel edge,
light the ring cells, and succeed iff at least one LED was lit. -/
def generateConcentricRings (pg : PatternGenerator) (g : Grid)
    (innerRadius middleRadius outerRadius targetSpacingMM : ℚ) : Bool × Grid :=
  let g := clearGrid pg.width pg.height g
  let ledSkip := calculateLEDSkip pg targetSpacingMM
  let centerX := getCenterX pg
  let centerY := getCenterY pg
  let maxRadius : ℚ := ((min pg.width pg.height : ℕ) : ℚ) / 2
  if outerRadius ≥ maxRadius then (false, g)
  else
    let st := ringsFill pg.width pg.height innerRadius middleRadius outerRadius
      ledSkip.toNat centerX centerY g
    (decide (0 < st.2), st.1)

/-! ### `PatternGenerator::generateCenterOnly` -/

/-- Embeds `PatternGenerator::generateCenterOnly`: clear, then light the center cell
if it is a valid coordinate. -/
def generateCenterOnly (pg : PatternGenerator) (g : Grid) : Bool × Grid :=
  let g := clearGrid pg.width pg.height g
  let centerX := getCenterX pg
  let centerY := getCenterY pg
  if isValidCoordinate pg centerX centerY then
    (true, setCell g centerY centerX true)
  else (false, g)

/-! ### `PatternGenerator::generateSpiral`

The `float` angle walk (`for (angle = 0; angle < 2*PI*turns; angle += 0.1)`,
radius growing linearly with angle, polar→cartesian conversion through
`cos`/`sin` and `round`) is embedded as the list `pts` of integer coordinate
pairs `(x, y)` the walk visits, in order; the spiral theorems below hold for
every such list, hence for the one the floating-point walk produces.  Inside
the loop the source validates the coordinate and applies the skip-stride
filter before storing. -/

/-- Embeds `PatternGenerator::generateSpiral`: clear, light the center
unconditionally (`ledCount` starts at 1), then run the angle walk. -/
def generateSpiral (pg : PatternGenerator) (g : Grid) (spacingMM : ℚ)
    (turns : ℤ) (pts : List (ℤ × ℤ)) : Bool × Grid :=
  let g := clearGrid pg.width pg.height g
  let centerX := getCenterX pg
  let centerY := getCenterY pg
  let ledSkip := calculateLEDSkip pg spacingMM
  let g := setCell g centerY centerX true
  let st := pts.foldl
    (fun (st : Grid × ℕ) p =>
      if isValidCoordinate pg p.1 p.2 ∧ (p.1 + p.2) % ledSkip = 0 then
        (setCell st.1 p.2.toNat p.1.toNat true, st.2 + 1)
      else st)
    (g, 1)
  (decide (0 < st.2), st.1)

/-! ### `PatternGenerator::generatePattern` -/

/-- Embeds `PATTERN_CONCENTRIC_RINGS` from `PtycographyConfig.h`. -/
def PATTERN_CONCENTRIC_RINGS : ℤ := 0

/-- Embeds `PATTERN_CENTER_ONLY` from `PtycographyConfig.h`. -/
def PATTERN_CENTER_ONLY : ℤ := 1

/-- Embeds `PATTERN_SPIRAL` from `PtycographyConfig.h`. -/
def PATTERN_SPIRAL : ℤ := 2

/-- Embeds `PATTERN_GRID` from `PtycographyConfig.h`. -/
def PATTERN_GRID : ℤ := 3

/-- Embeds `PatternGenerator::generatePattern`: dispatch on the pattern type with the
built-in default parameters; unknown types return `false` without touching the
grid.  `pts` is the abstracted spiral walk (used only by the spiral case). -/
def generatePattern (pg : PatternGenerator) (g : Grid) (pts : List (ℤ × ℤ))
    (ptype : ℤ) : Bool × Grid :=
  if ptype = PATTERN_CONCENTRIC_RINGS then
    generateConcentricRings pg g 27 37 47 4
  else if ptype = PATTERN_CENTER_ONLY then
    generateCenterOnly pg g
  else if ptype = PATTERN_SPIRAL then
    generateSpiral pg g 4 3 pts
  else if ptype = PATTERN_GRID then
    generateGrid pg g 4 4
  else (false, g)

/-- Embeds `PatternGenerator::countActiveLEDs` over the in-bounds cells. -/
def countActiveLEDs (pg : PatternGenerator) (g : Grid) : ℕ :=
  (List.range pg.height).foldl
    (fun c y => (List.range pg.width).foldl
      (fun c x => if g y x then c + 1 else c) c)
    0

/-- Embeds `PatternGenerator::validatePattern`: at least one lit cell. -/
def validatePattern (pg : PatternGenerator) (g : Grid) : Bool :=
  decide (0 < countActiveLEDs pg g)

/-! ### `LEDMatrix`

The hardware output lines (`digitalWrite` targets) are embedded as a record of
pin levels; `digitalWrite(pin, v)` is a record update of the corresponding
field.  HIGH is 1 and LOW is 0. -/

/-- Embeds `MATRIX_WIDTH` from `LEDMatrix.h`. -/
def MATRIX_WIDTH : ℕ := 64

/-- Embeds `MATRIX_HEIGHT` from `LEDMatrix.h`. -/
def MATRIX_HEIGHT : ℕ := 64

/-- Embeds `MATRIX_HALF_HEIGHT` from `LEDMatrix.h`. -/
def MATRIX_HALF_HEIGHT : ℕ := 32

/-- Embeds `COLOR_RED` bit from `LEDMatrix.h`. -/
def COLOR_RED : ℕ := 1

/-- Embeds `COLOR_GREEN` bit from `LEDMatrix.h`. -/
def COLOR_GREEN : ℕ := 2

/-- Embeds `COLOR_BLUE` bit from `LEDMatrix.h`. -/
def COLOR_BLUE : ℕ := 4

/-- Embeds `COLOR_MAX` from `LEDMatrix.h`. -/
def COLOR_MAX : ℕ := 7

namespace LEDMatrix

/-- The output-line state of the matrix driver: blank, clock, latch, the five
address lines and the six color-data lines. -/
structure Pins where
  bl : ℕ
  ck : ℕ
  la : ℕ
  a0 : ℕ
  a1 : ℕ
  a2 : ℕ
  a3 : ℕ
  a4 : ℕ
  r0 : ℕ
  r1 : ℕ
  g0 : ℕ
  g1 : ℕ
  b0 : ℕ
  b1 : ℕ

/-- The `LEDMatrix` object state observable through its interface: the output
lines and the `_displayDirty` flag. -/
structure State where
  pins : Pins
  displayDirty : Bool

/-- Embeds `LEDMatrix::initAddressCache`: `_rowAddressCache[y][k]`, computed from
`rowAddr = y % MATRIX_HALF_HEIGHT` with the bit masks of the source (the
cache is filled once at `begin()` and never changes). -/
def rowAddressCache (y k : ℕ) : ℕ :=
  let rowAddr := y % MATRIX_HALF_HEIGHT
  match k with
  | 0 => rowAddr &&& 1
  | 1 => if rowAddr &&& 2 > 0 then 1 else 0
  | 2 => if rowAddr &&& 4 > 0 then 1 else 0
  | 3 => if rowAddr &&& 8 > 0 then 1 else 0
  | 4 => if rowAddr &&& 16 > 0 then 1 else 0
  | _ => 0

/-- Embeds `LEDMatrix::isValidCoordinate`. -/
def isValidCoordinate (x y : ℤ) : Bool :=
  decide (0 ≤ x ∧ x < (MATRIX_WIDTH : ℤ) ∧ 0 ≤ y ∧ y < (MATRIX_HEIGHT : ℤ))

/-- Embeds `LEDMatrix::isValidColor`. -/
def isValidColor (color : ℤ) : Bool :=
  decide (0 ≤ color ∧ color ≤ (COLOR_MAX : ℤ))

set_option maxHeartbeats 1000000 in
/-- Embeds `LEDMatrix::setLED`: parameter validation, then the full row-addressing
and column-shift electrical sequence.  In the valid branch `0 ≤ color ≤ 7`,
so the C bit tests `color & COLOR_*` are `color.toNat &&& COLOR_*`. -/
def setLED (m : State) (x y color : ℤ) : Bool × State :=
  if !(isValidCoordinate x y) || !(isValidColor color) then (false, m)
  else
    let isLowerHalf := decide (y < (MATRIX_HALF_HEIGHT : ℤ))
    let p := m.pins
    let p := {p with bl := 1}
    let p := {p with la := 1}
    let p := {p with a0 := 1}
    let p := {p with a0 := 0}
    let yn := y.toNat
    let p := {p with a0 := rowAddressCache yn 0}
    let p := {p with a1 := rowAddressCache yn 1}
    let p := {p with a2 := rowAddressCache yn 2}
    let p := {p with a3 := rowAddressCache yn 3}
    let p := {p with a4 := rowAddressCache yn 4}
    let currentR : ℕ := if color.toNat &&& COLOR_RED ≠ 0 then 1 else 0
    let currentG : ℕ := if color.toNat &&& COLOR_GREEN ≠ 0 then 1 else 0
    let currentB : ℕ := if color.toNat &&& COLOR_BLUE ≠ 0 then 1 else 0
    let p := (List.range MATRIX_WIDTH).foldl (fun p i =>
      let isTargetColumn := decide ((i : ℤ) = x)
      let p :=
        if isTargetColumn || decide ((i : ℤ) = x + 1) then
          let p := {p with g0 := if isTargetColumn then (if isLowerHalf then currentG else 0) else 0}
          let p := {p with g1 := if isTargetColumn then (if !isLowerHalf then currentG else 0) else 0}
          let p := {p with r0 := if isTargetColumn then (if isLowerHalf then currentR else 0) else 0}
          let p := {p with r1 := if isTargetColumn then (if !isLowerHalf then currentR else 0) else 0}
          let p := {p with b0 := if isTargetColumn then (if isLowerHalf then currentB else 0) else 0}
          {p with b1 := if isTargetColumn then (if !isLowerHalf then currentB else 0) else 0}
        else p
      let p := {p with ck := 1}
      {p with ck := 0}) p
    let p := {p with la := 0}
    let p := {p with bl := 0}
    (true, { pins := p, displayDirty := false })

/-- The per-row body of `LEDMatrix::clearDisplay`: latch, address-line reset
pulse, cached row address, 64 clock pulses (color lines already low), latch. -/
def clearRowPins (p : Pins) (y : ℕ) : Pins :=
  let p := {p with la := 1}
  let p := {p with a0 := 1}
  let p := {p with a0 := 0}
  let p := {p with a0 := rowAddressCache y 0}
  let p := {p with a1 := rowAddressCache y 1}
  let p := {p with a2 := rowAddressCache y 2}
  let p := {p with a3 := rowAddressCache y 3}
  let p := {p with a4 := rowAddressCache y 4}
  let p := (List.range MATRIX_WIDTH).foldl (fun p _ =>
    let p := {p with ck := 1}
    {p with ck := 0}) p
  {p with la := 0}

/-- The batch loop of `LEDMatrix::clearDisplay`
(`for (batch = 0; batch < MATRIX_HEIGHT; batch += BATCH_SIZE)` with
`BATCH_SIZE = 8`). -/
def clearBatches (p : Pins) (batch : ℕ) : Pins :=
  if batch < MATRIX_HEIGHT then
    let endRow := min (batch + 8) MATRIX_HEIGHT
    clearBatches ((List.range' batch (endRow - batch)).foldl clearRowPins p) (batch + 8)
  else p
termination_by MATRIX_HEIGHT - batch
decreasing_by simp only [MATRIX_HEIGHT] at *; omega

/-- Embeds `LEDMatrix::clearDisplay`: blank, force all color lines low, clock zeros
through every row in batches, mark clean, keep the display blanked. -/
def clearDisplay (m : State) : State :=
  let p := {m.pins with bl := 1}
  let p := {p with r0 := 0}
  let p := {p with r1 := 0}
  let p := {p with g0 := 0}
  let p := {p with g1 := 0}
  let p := {p with b0 := 0}
  let p := {p with b1 := 0}
  let p := clearBatches p 0
  let p := {p with bl := 1}
  { pins := p, displayDirty := false }

/-- Embeds `LEDMatrix::isDisplayDirty`. -/
def isDisplayDirty (m : State) : Bool := m.displayDirty

/-- Embeds `LEDMatrix::setDisplayDirty`. -/
def setDisplayDirty (m : State) (dirty : Bool) : State :=
  {m with displayDirty := dirty}

end LEDMatrix

/-! ### `IdleManager`

Timestamps are `unsigned long` milliseconds; each method reads `millis()`
once, which is passed in as the explicit `currentTime` argument (the second
`millis()` read inside `enterIdleMode` is identified with the caller's read —
only their difference, which is sub-millisecond, would distinguish them, and
nothing here depends on it).  `unsigned long` subtraction `a - b` wraps
modulo 2^32, embedded as `usub32`.  The deployed sketch always constructs the
manager with a non-null `LEDMatrix*`, so the matrix is embedded by value. -/

/-- Unsigned 32-bit subtraction `a - b` (the wrap-around `millis()` idiom). -/
def usub32 (a b : ℕ) : ℕ := (a + (2 ^ 32 - b % 2 ^ 32)) % 2 ^ 32

namespace IdleManager

/-- The `IdleManager` object state: the borrowed matrix, the three configured
durations, the idle flag and the two timestamps. -/
structure State where
  matrix : LEDMatrix.State
  idleTimeout : ℕ
  blinkInterval : ℕ
  blinkDuration : ℕ
  idleMode : Bool
  lastActivityTime : ℕ
  lastBlinkTime : ℕ

/-- Embeds `IdleManager::isIdleTimeoutExceeded`. -/
def isIdleTimeoutExceeded (s : State) (currentTime : ℕ) : Bool :=
  decide (s.idleTimeout ≤ usub32 currentTime s.lastActivityTime)

/-- Embeds `IdleManager::isBlinkIntervalExceeded`. -/
def isBlinkIntervalExceeded (s : State) (currentTime : ℕ) : Bool :=
  decide (s.blinkInterval ≤ usub32 currentTime s.lastBlinkTime)

/-- Embeds `IdleManager::enterIdleMode`: only acts when not already idle — sets the
flag, clears the display, resets the blink timer. -/
def enterIdleMode (s : State) (currentTime : ℕ) : State :=
  if !s.idleMode then
    { s with idleMode := true,
             matrix := LEDMatrix.clearDisplay s.matrix,
             lastBlinkTime := currentTime }
  else s

/-- Embeds `IdleManager::exitIdleMode`: only acts when idle — clears the flag,
records activity, marks the matrix for a forced refresh. -/
def exitIdleMode (s : State) (currentTime : ℕ) : State :=
  if s.idleMode then
    { s with idleMode := false,
             lastActivityTime := currentTime,
             matrix := LEDMatrix.setDisplayDirty s.matrix true }
  else s

/-- Embeds `IdleManager::updateActivityTime`. -/
def updateActivityTime (s : State) (currentTime : ℕ) : State :=
  { s with lastActivityTime := currentTime }

/-- Embeds `IdleManager::blinkHeartbeat`: light the center LED green, hold for the
blink duration, clear the display. -/
def blinkHeartbeat (s : State) : Bool × State :=
  let m := (LEDMatrix.setLED s.matrix ((MATRIX_WIDTH / 2 : ℕ) : ℤ)
    ((MATRIX_HEIGHT / 2 : ℕ) : ℤ) (COLOR_GREEN : ℤ)).2
  let m := LEDMatrix.clearDisplay m
  (true, { s with matrix := m })

/-- Embeds `IdleManager::update`: in idle mode, heartbeat-blink when the interval
has elapsed; otherwise enter idle mode when the inactivity timeout has
elapsed. -/
def update (s : State) (currentTime : ℕ) : State :=
  if s.idleMode then
    if isBlinkIntervalExceeded s currentTime then
      { (blinkHeartbeat s).2 with lastBlinkTime := currentTime }
    else s
  else
    if isIdleTimeoutExceeded s currentTime then enterIdleMode s currentTime
    else s

end IdleManager

/-! ### `CameraManager`

Time is an explicit millisecond clock threaded through each call; `delay(n)`
advances it by `n`.  The busy input line `digitalRead(CAMERA_BUSY_PIN)` is the
time-indexed environment `busy` (`true` = HIGH = still busy).  Inside
`triggerCamera` the elapsed wait `millis() - startTime` never exceeds the
timeout by more than one poll step, far below 2^32, so the wrapping
subtraction coincides with plain subtraction and the wait loop is tracked by
its `elapsed` counter directly. -/

/-- Embeds `CAMERA_ERROR_NONE` from `CameraManager.h`. -/
def CAMERA_ERROR_NONE : ℕ := 0

/-- Embeds `CAMERA_ERROR_TIMEOUT` from `CameraManager.h`. -/
def CAMERA_ERROR_TIMEOUT : ℕ := 1

/-- Embeds `CAMERA_ERROR_TRIGGER_FAILURE` from `CameraManager.h`. -/
def CAMERA_ERROR_TRIGGER_FAILURE : ℕ := 2

/-- Embeds `CAMERA_ERROR_NOT_READY` from `CameraManager.h`. -/
def CAMERA_ERROR_NOT_READY : ℕ := 3

/-- Embeds `CAMERA_PULSE_WIDTH` from `PtycographyConfig.h`. -/
def CAMERA_PULSE_WIDTH : ℤ := 100

/-- Embeds `PREFRAME_DELAY` from `PtycographyConfig.h`. -/
def PREFRAME_DELAY : ℤ := 400

/-- Embeds `POSTFRAME_DELAY` from `PtycographyConfig.h`. -/
def POSTFRAME_DELAY : ℤ := 1500

namespace CameraManager

/-- The `CameraManager` object state, plus the level of the trigger output
line. -/
structure State where
  enabled : Bool
  pulseWidth : ℤ
  preDelay : ℤ
  postDelay : ℤ
  lastTriggerTime : ℕ
  triggerCount : ℤ
  triggerActive : Bool
  errorCode : ℕ
  triggerPinLevel : ℕ

/-- The constructor's initial state (trigger pin low after `begin()`). -/
def initialState : State :=
  { enabled := true
    pulseWidth := CAMERA_PULSE_WIDTH
    preDelay := PREFRAME_DELAY
    postDelay := POSTFRAME_DELAY
    lastTriggerTime := 0
    triggerCount := 0
    triggerActive := false
    errorCode := CAMERA_ERROR_NONE
    triggerPinLevel := 0 }

/-- Embeds `CameraManager::sendTriggerPulse`: raise the trigger line, hold for the
pulse width, lower it, record the trigger time and count; always succeeds. -/
def sendTriggerPulse (s : State) (clock : ℕ) (pulseWidth : ℤ) :
    Bool × State × ℕ :=
  let s := { s with triggerPinLevel := 1 }
  let clock := clock + pulseWidth.toNat
  let s := { s with triggerPinLevel := 0 }
  let s := { s with lastTriggerTime := clock }
  let s := { s with triggerCount := s.triggerCount + 1 }
  (true, s, clock)

/-- The busy-wait loop of `CameraManager::triggerCamera`:
`while (digitalRead(CAMERA_BUSY_PIN) == HIGH) { delay(10);
if (millis() - startTime > CAMERA_READY_TIMEOUT) return false; }`.
`start` is the `startTime` read, `elapsed` the time waited so far; returns
whether the camera became ready, and the clock on exit. -/
def readyWait (busy : ℕ → Bool) (timeout start elapsed : ℕ) : Bool × ℕ :=
  if busy (start + elapsed) then
    if timeout < elapsed + 10 then (false, start + elapsed + 10)
    else readyWait busy timeout start (elapsed + 10)
  else (true, start + elapsed)
termination_by timeout + 10 - elapsed
decreasing_by omega

/-- Embeds `CameraManager::triggerCamera`.  Modelled from the spec: the macros
`CAMERA_USE_READY_SIGNAL` and `CAMERA_READY_TIMEOUT` are not defined in the
sources under review (they select and bound the ready/busy handshake the spec
describes), so the compile-time flag and the configured timeout are the
parameters `useReadySignal` and `readyTimeout`. -/
def triggerCamera (busy : ℕ → Bool) (useReadySignal : Bool)
    (readyTimeout : ℕ) (s : State) (clock : ℕ) (waitForReady : Bool) :
    Bool × State × ℕ :=
  let s := { s with errorCode := CAMERA_ERROR_NONE }
  if !s.enabled then (true, s, clock)
  else
    let s := { s with triggerActive := true }
    let clock := if s.preDelay > 0 then clock + s.preDelay.toNat else clock
    let r := sendTriggerPulse s clock s.pulseWidth
    let success := r.1
    let s := r.2.1
    let clock := r.2.2
    if !success then
      (false, { s with errorCode := CAMERA_ERROR_TRIGGER_FAILURE,
                       triggerActive := false }, clock)
    else if useReadySignal && waitForReady then
      let w := readyWait busy readyTimeout clock 0
      if !w.1 then
        (false, { s with errorCode := CAMERA_ERROR_TIMEOUT,
                         triggerActive := false }, w.2)
      else
        let clock := if s.postDelay > 0 then w.2 + s.postDelay.toNat else w.2
        (true, { s with triggerActive := false }, clock)
    else
      let clock := if s.postDelay > 0 then clock + s.postDelay.toNat else clock
      (true, { s with triggerActive := false }, clock)

/-- Embeds `CameraManager::testTrigger`: clear the error, pulse with the custom
width when positive, no pre/post delay and no ready-wait. -/
def testTrigger (s : State) (clock : ℕ) (customPulseWidth : ℤ) :
    Bool × State × ℕ :=
  let s := { s with errorCode := CAMERA_ERROR_NONE }
  if !s.enabled then (true, s, clock)
  else
    let s := { s with triggerActive := true }
    let pulseWidth := if customPulseWidth > 0 then customPulseWidth else s.pulseWidth
    let r := sendTriggerPulse s clock pulseWidth
    let success := r.1
    let s := r.2.1
    let clock := r.2.2
    let s := if !success then { s with errorCode := CAMERA_ERROR_TRIGGER_FAILURE }
      else s
    let s := { s with triggerActive := false }
    (success, s, clock)

/-- Embeds `CameraManager::setEnabled`. -/
def setEnabled (s : State) (enabled : Bool) : State := { s with enabled := enabled }

/-- Embeds `CameraManager::setPulseWidth`: silently ignores out-of-range input. -/
def setPulseWidth (s : State) (width : ℤ) : State :=
  if width > 0 ∧ width ≤ 1000 then { s with pulseWidth := width } else s

/-- Embeds `CameraManager::setPreDelay`: silently ignores out-of-range input. -/
def setPreDelay (s : State) (d : ℤ) : State :=
  if d ≥ 0 ∧ d ≤ 5000 then { s with preDelay := d } else s

/-- Embeds `CameraManager::setPostDelay`: silently ignores out-of-range input. -/
def setPostDelay (s : State) (d : ℤ) : State :=
  if d ≥ 0 ∧ d ≤ 10000 then { s with postDelay := d } else s

/-- Embeds `CameraManager::clearErrorCode`. -/
def clearErrorCode (s : State) : State := { s with errorCode := CAMERA_ERROR_NONE }

end CameraManager

theorem setCell_apply (g : Grid) (y x y0 x0 : ℕ) (b : Bool) :
    setCell g y x b y0 x0 = if y0 = y ∧ x0 = x then b else g y0 x0 := rfl

theorem clearRow_apply (g : Grid) (y w y0 x0 : ℕ) :
    clearRow g y w y0 x0 = if y0 = y ∧ x0 < w then false else g y0 x0 := by
  induction w with
  | zero => simp [clearRow]
  | succ w ih =>
      simp only [clearRow, List.range_succ, List.foldl_append, List.foldl_cons,
        List.foldl_nil] at *
      rw [setCell_apply, ih]
      split_ifs <;> first | rfl | omega

theorem clearGrid_apply (w h : ℕ) (g : Grid) (y0 x0 : ℕ) :
    clearGrid w h g y0 x0 = if y0 < h ∧ x0 < w then false else g y0 x0 := by
  induction h with
  | zero => simp [clearGrid]
  | succ h ih =>
      simp only [clearGrid, List.range_succ, List.foldl_append, List.foldl_cons,
        List.foldl_nil] at *
      rw [clearRow_apply, ih]
      split_ifs <;> first | rfl | omega

theorem gridFillRow_apply (w h y s1 : ℕ) :
    ∀ x g c y0 x0, (gridFillRow w h y s1 x g c).1 y0 x0 =
      if y0 = y ∧ y < h ∧ x ≤ x0 ∧ x0 < w ∧ (s1 + 1) ∣ (x0 - x)
      then true else g y0 x0
  | x, g, c, y0, x0 => by
    rw [gridFillRow]
    by_cases hx : x < w
    · rw [if_pos hx]
      by_cases hyh : y < h
      · rw [if_pos ⟨hx, hyh⟩, gridFillRow_apply w h y s1 (x + (s1 + 1))]
        by_cases hQ : y0 = y ∧ y < h ∧ x ≤ x0 ∧ x0 < w ∧ (s1 + 1) ∣ (x0 - x)
        · rw [if_pos hQ]
          by_cases hx0 : x0 = x
          · have hcell : setCell g y x true y0 x0 = true := by
              rw [setCell_apply, if_pos ⟨hQ.1, hx0⟩]
            rw [hcell, ite_self]
          · have hlt : x < x0 := lt_of_le_of_ne hQ.2.2.1 (Ne.symm hx0)
            have hle : x + (s1 + 1) ≤ x0 := by
              have := Nat.le_of_dvd (by omega) hQ.2.2.2.2
              omega
            have hdvd : (s1 + 1) ∣ (x0 - (x + (s1 + 1))) := by
              have heq : x0 - (x + (s1 + 1)) = (x0 - x) - (s1 + 1) := by omega
              rw [heq]
              exact Nat.dvd_sub' hQ.2.2.2.2 dvd_rfl
            rw [if_pos ⟨hQ.1, hQ.2.1, hle, hQ.2.2.2.1, hdvd⟩]
        · rw [if_neg hQ]
          have h1 : ¬(y0 = y ∧ y < h ∧ x + (s1 + 1) ≤ x0 ∧ x0 < w ∧
              (s1 + 1) ∣ (x0 - (x + (s1 + 1)))) := by
            rintro ⟨e1, e2, e3, e4, e5⟩
            refine hQ ⟨e1, e2, by omega, e4, ?_⟩
            have heq : x0 - x = (x0 - (x + (s1 + 1))) + (s1 + 1) := by omega
            rw [heq]
            exact dvd_add e5 dvd_rfl
          have h2 : ¬(y0 = y ∧ x0 = x) := by
            rintro ⟨e1, e2⟩
            exact hQ ⟨e1, hyh, by omega, by omega, by simp [e2]⟩
          rw [if_neg h1, setCell_apply, if_neg h2]
      · rw [if_neg (fun hc => hyh hc.2), gridFillRow_apply w h y s1 (x + (s1 + 1))]
        have h1 : ¬(y0 = y ∧ y < h ∧ x + (s1 + 1) ≤ x0 ∧ x0 < w ∧
            (s1 + 1) ∣ (x0 - (x + (s1 + 1)))) := fun hc => hyh hc.2.1
        have h2 : ¬(y0 = y ∧ y < h ∧ x ≤ x0 ∧ x0 < w ∧
            (s1 + 1) ∣ (x0 - x)) := fun hc => hyh hc.2.1
        rw [if_neg h1, if_neg h2]
    · rw [if_neg hx]
      have h2 : ¬(y0 = y ∧ y < h ∧ x ≤ x0 ∧ x0 < w ∧ (s1 + 1) ∣ (x0 - x)) :=
        fun hc => hx (lt_of_le_of_lt hc.2.2.1 hc.2.2.2.1)
      rw [if_neg h2]
  termination_by x => w - x
  decreasing_by all_goals omega

theorem gridFillAll_apply (w h s1x s1y : ℕ) :
    ∀ y g c y0 x0, (gridFillAll w h s1x s1y y g c).1 y0 x0 =
      if y ≤ y0 ∧ y0 < h ∧ (s1y + 1) ∣ (y0 - y) ∧ x0 < w ∧ (s1x + 1) ∣ x0
      then true else g y0 x0
  | y, g, c, y0, x0 => by
    rw [gridFillAll]
    by_cases hy : y < h
    · rw [if_pos hy, gridFillAll_apply w h s1x s1y (y + (s1y + 1)),
        gridFillRow_apply w h y s1x 0]
      by_cases hQ : y ≤ y0 ∧ y0 < h ∧ (s1y + 1) ∣ (y0 - y) ∧ x0 < w ∧
          (s1x + 1) ∣ x0
      · rw [if_pos hQ]
        by_cases hy0 : y0 = y
        · have hrow : y0 = y ∧ y < h ∧ 0 ≤ x0 ∧ x0 < w ∧ (s1x + 1) ∣ (x0 - 0) := by
            refine ⟨hy0, hy, Nat.zero_le _, hQ.2.2.2.1, ?_⟩
            simpa using hQ.2.2.2.2
          rw [if_pos hrow, ite_self]
        · have hlt : y < y0 := lt_of_le_of_ne hQ.1 (Ne.symm hy0)
          have hle : y + (s1y + 1) ≤ y0 := by
            have := Nat.le_of_dvd (by omega) hQ.2.2.1
            omega
          have hdvd : (s1y + 1) ∣ (y0 - (y + (s1y + 1))) := by
            have heq : y0 - (y + (s1y + 1)) = (y0 - y) - (s1y + 1) := by omega
            rw [heq]
            exact Nat.dvd_sub' hQ.2.2.1 dvd_rfl
          rw [if_pos ⟨hle, hQ.2.1, hdvd, hQ.2.2.2.1, hQ.2.2.2.2⟩]
      · rw [if_neg hQ]
        have h1 : ¬(y + (s1y + 1) ≤ y0 ∧ y0 < h ∧ (s1y + 1) ∣ (y0 - (y + (s1y + 1))) ∧
            x0 < w ∧ (s1x + 1) ∣ x0) := by
          rintro ⟨e1, e2, e3, e4, e5⟩
          refine hQ ⟨by omega, e2, ?_, e4, e5⟩
          have heq : y0 - y = (y0 - (y + (s1y + 1))) + (s1y + 1) := by omega
          rw [heq]
          exact dvd_add e3 dvd_rfl
        have h2 : ¬(y0 = y ∧ y < h ∧ 0 ≤ x0 ∧ x0 < w ∧ (s1x + 1) ∣ (x0 - 0)) := by
          rintro ⟨e1, _, _, e4, e5⟩
          exact hQ ⟨by omega, by omega, by simp [e1], e4, by simpa using e5⟩
        rw [if_neg h1, if_neg h2]
    · rw [if_neg hy]
      have h2 : ¬(y ≤ y0 ∧ y0 < h ∧ (s1y + 1) ∣ (y0 - y) ∧ x0 < w ∧
          (s1x + 1) ∣ x0) := fun hc => hy (lt_of_le_of_lt hc.1 hc.2.1)
      rw [if_neg h2]
  termination_by y => h - y
  decreasing_by omega

theorem gridFillRow_count_le (w h y s1 : ℕ) :
    ∀ x g c, c ≤ (gridFillRow w h y s1 x g c).2
  | x, g, c => by
    rw [gridFillRow]
    by_cases hx : x < w
    · rw [if_pos hx]
      by_cases hyh : y < h
      · rw [if_pos ⟨hx, hyh⟩]
        have := gridFillRow_count_le w h y s1 (x + (s1 + 1)) (setCell g y x true)
          (c + 1)
        omega
      · rw [if_neg (fun hc => hyh hc.2)]
        exact gridFillRow_count_le w h y s1 (x + (s1 + 1)) g c
    · rw [if_neg hx]
  termination_by x => w - x
  decreasing_by all_goals omega

theorem gridFillRow_count_lt (w h y s1 x : ℕ) (g : Grid) (c : ℕ)
    (hx : x < w) (hy : y < h) : c < (gridFillRow w h y s1 x g c).2 := by
  rw [gridFillRow, if_pos hx, if_pos ⟨hx, hy⟩]
  have := gridFillRow_count_le w h y s1 (x + (s1 + 1)) (setCell g y x true) (c + 1)
  omega

theorem gridFillAll_count_le (w h s1x s1y : ℕ) :
    ∀ y g c, c ≤ (gridFillAll w h s1x s1y y g c).2
  | y, g, c => by
    rw [gridFillAll]
    by_cases hy : y < h
    · rw [if_pos hy]
      have h1 := gridFillRow_count_le w h y s1x 0 g c
      have h2 := gridFillAll_count_le w h s1x s1y (y + (s1y + 1))
        (gridFillRow w h y s1x 0 g c).1 (gridFillRow w h y s1x 0 g c).2
      omega
    · rw [if_neg hy]
  termination_by y => h - y
  decreasing_by omega

theorem gridFillAll_count_lt (w h s1x s1y y : ℕ) (g : Grid) (c : ℕ)
    (hw : 0 < w) (hy : y < h) : c < (gridFillAll w h s1x s1y y g c).2 := by
  rw [gridFillAll, if_pos hy]
  have h1 := gridFillRow_count_lt w h y s1x 0 g c hw hy
  have h2 := gridFillAll_count_le w h s1x s1y (y + (s1y + 1))
    (gridFillRow w h y s1x 0 g c).1 (gridFillRow w h y s1x 0 g c).2
  omega

theorem gridFillRow_count_fix (w h y s1 : ℕ) :
    ∀ x g c, (gridFillRow w h y s1 x g c).2 = c → (gridFillRow w h y s1 x g c).1 = g
  | x, g, c => by
    intro hc
    rw [gridFillRow] at hc ⊢
    by_cases hx : x < w
    · rw [if_pos hx] at hc ⊢
      by_cases hyh : y < h
      · rw [if_pos ⟨hx, hyh⟩] at hc
        have := gridFillRow_count_le w h y s1 (x + (s1 + 1)) (setCell g y x true)
          (c + 1)
        omega
      · rw [if_neg (fun hcond => hyh hcond.2)] at hc ⊢
        exact gridFillRow_count_fix w h y s1 (x + (s1 + 1)) g c hc
    · rw [if_neg hx]
  termination_by x => w - x
  decreasing_by all_goals omega

theorem gridFillAll_count_fix (w h s1x s1y : ℕ) :
    ∀ y g c, (gridFillAll w h s1x s1y y g c).2 = c →
      (gridFillAll w h s1x s1y y g c).1 = g
  | y, g, c => by
    intro hc
    rw [gridFillAll] at hc ⊢
    by_cases hy : y < h
    · rw [if_pos hy] at hc ⊢
      have h1 := gridFillRow_count_le w h y s1x 0 g c
      have h2 := gridFillAll_count_le w h s1x s1y (y + (s1y + 1))
        (gridFillRow w h y s1x 0 g c).1 (gridFillRow w h y s1x 0 g c).2
      have hrow : (gridFillRow w h y s1x 0 g c).2 = c := by omega
      have hgrid := gridFillRow_count_fix w h y s1x 0 g c hrow
      rw [hgrid, hrow] at hc ⊢
      exact gridFillAll_count_fix w h s1x s1y (y + (s1y + 1)) g c hc
    · rw [if_neg hy]
  termination_by y => h - y
  decreasing_by omega

/-! ### Generic facts about the `(grid, ledCount)` folds used by the other
generators -/

theorem foldl_state_mono {α : Type} (step : Grid × ℕ → α → Grid × ℕ)
    (hm : ∀ st a, st.2 ≤ (step st a).2) :
    ∀ (l : List α) (st : Grid × ℕ), st.2 ≤ (l.foldl step st).2 := by
  intro l
  induction l with
  | nil => intro st; simp
  | cons a l ih =>
      intro st
      calc st.2 ≤ (step st a).2 := hm st a
        _ ≤ (l.foldl step (step st a)).2 := ih (step st a)

theorem foldl_state_fix {α : Type} (step : Grid × ℕ → α → Grid × ℕ)
    (hm : ∀ st a, st.2 ≤ (step st a).2)
    (hf : ∀ st a, (step st a).2 = st.2 → step st a = st) :
    ∀ (l : List α) (st : Grid × ℕ), (l.foldl step st).2 = st.2 →
      l.foldl step st = st := by
  intro l
  induction l with
  | nil => intro st _; simp
  | cons a l ih =>
      intro st hc
      simp only [List.foldl_cons] at hc ⊢
      have h1 := hm st a
      have h2 := foldl_state_mono step hm l (step st a)
      have hstep : (step st a).2 = st.2 := by omega
      rw [hf st a hstep] at hc ⊢
      exact ih st hc

theorem foldl_state_pres {α : Type} (step : Grid × ℕ → α → Grid × ℕ)
    (P : Grid × ℕ → Prop) (hp : ∀ st a, P st → P (step st a)) :
    ∀ (l : List α) (st : Grid × ℕ), P st → P (l.foldl step st) := by
  intro l
  induction l with
  | nil => intro st h; simpa using h
  | cons a l ih =>
      intro st h
      simpa using ih (step st a) (hp st a h)

/-! ### Branch lemmas for the generators -/

theorem generateGrid_reject (pg : PatternGenerator) (g : Grid) (sx sy : ℤ)
    (h : sx < 1 ∨ sy < 1) :
    generateGrid pg g sx sy = (false, clearGrid pg.width pg.height g) := by
  simp only [generateGrid]
  rw [if_pos h]

theorem generateGrid_accept (pg : PatternGenerator) (g : Grid) (sx sy : ℤ)
    (h : ¬(sx < 1 ∨ sy < 1)) :
    generateGrid pg g sx sy =
      (decide (0 < (gridFillAll pg.width pg.height (sx.toNat - 1) (sy.toNat - 1)
          0 (clearGrid pg.width pg.height g) 0).2),
        (gridFillAll pg.width pg.height (sx.toNat - 1) (sy.toNat - 1)
          0 (clearGrid pg.width pg.height g) 0).1) := by
  simp only [generateGrid]
  rw [if_neg h]

theorem generateConcentricRings_reject (pg : PatternGenerator) (g : Grid)
    (inner middle outer spacing : ℚ)
    (hout : ((min pg.width pg.height : ℕ) : ℚ) / 2 ≤ outer) :
    generateConcentricRings pg g inner middle outer spacing =
      (false, clearGrid pg.width pg.height g) := by
  simp only [generateConcentricRings]
  split_ifs with h
  · rfl
  · exact absurd hout h

theorem generateConcentricRings_accept (pg : PatternGenerator) (g : Grid)
    (inner middle outer spacing : ℚ)
    (hout : ¬(((min pg.width pg.height : ℕ) : ℚ) / 2 ≤ outer)) :
    generateConcentricRings pg g inner middle outer spacing =
      (decide (0 < (ringsFill pg.width pg.height inner middle outer
          (calculateLEDSkip pg spacing).toNat (getCenterX pg) (getCenterY pg)
          (clearGrid pg.width pg.height g)).2),
        (ringsFill pg.width pg.height inner middle outer
          (calculateLEDSkip pg spacing).toNat (getCenterX pg) (getCenterY pg)
          (clearGrid pg.width pg.height g)).1) := by
  simp only [generateConcentricRings]
  split_ifs with h
  · exact absurd h hout
  · rfl

theorem ringsCellStep_mono (inner middle outer : ℚ) (skip cX cY y : ℕ)
    (st : Grid × ℕ) (x : ℕ) :
    st.2 ≤ (ringsCellStep inner middle outer skip cX cY y st x).2 := by
  simp only [ringsCellStep]
  split_ifs <;> simp

theorem ringsCellStep_fix (inner middle outer : ℚ) (skip cX cY y : ℕ)
    (st : Grid × ℕ) (x : ℕ)
    (h : (ringsCellStep inner middle outer skip cX cY y st x).2 = st.2) :
    ringsCellStep inner middle outer skip cX cY y st x = st := by
  simp only [ringsCellStep] at h ⊢
  split_ifs at h ⊢ <;> first | rfl | omega

theorem ringsFill_count_zero (w h : ℕ) (inner middle outer : ℚ)
    (skip cX cY : ℕ) (g : Grid)
    (hc : (ringsFill w h inner middle outer skip cX cY g).2 = 0) :
    (ringsFill w h inner middle outer skip cX cY g).1 = g := by
  have hfix := foldl_state_fix
    (fun st y => (List.range w).foldl
      (ringsCellStep inner middle outer skip cX cY y) st)
    (fun st y => foldl_state_mono _ (ringsCellStep_mono inner middle outer skip cX cY y)
      (List.range w) st)
    (fun st y hy => foldl_state_fix _
      (ringsCellStep_mono inner middle outer skip cX cY y)
      (ringsCellStep_fix inner middle outer skip cX cY y)
      (List.range w) st hy)
    (List.range h) (g, 0)
  have : ringsFill w h inner middle outer skip cX cY g = (g, 0) := by
    apply hfix
    exact hc
  rw [this]

/-! ### Claim theorems for the pattern engine -/

/-- C5: for every inner and middle radius and every target spacing,
`generateConcentricRings` with an outer radius at least `min(width,height)/2`
returns `false`, and afterwards every in-bounds cell of the pattern grid is
`false`. -/
theorem claim_rings_oversize_rejects (pg : PatternGenerator) (g : Grid)
    (innerRadius middleRadius outerRadius targetSpacingMM : ℚ)
    (hout : ((min pg.width pg.height : ℕ) : ℚ) / 2 ≤ outerRadius) :
    (generateConcentricRings pg g innerRadius middleRadius outerRadius
        targetSpacingMM).1 = false ∧
    ∀ x y : ℕ, x < pg.width → y < pg.height →
      (generateConcentricRings pg g innerRadius middleRadius outerRadius
        targetSpacingMM).2 y x = false := by
  rw [generateConcentricRings_reject pg g _ _ _ _ hout]
  exact ⟨rfl, fun x y hx hy => by
    dsimp only
    rw [clearGrid_apply, if_pos ⟨hy, hx⟩]⟩

/-- Witness for C5: the 64×64 generator with outer radius 47 (≥ 32) rejects
and clears cell (0,0) of an all-true grid. -/
theorem claim_rings_oversize_rejects_witness :
    (generateConcentricRings pg64 (fun _ _ => true) 27 37 47 4).1 = false ∧
    (generateConcentricRings pg64 (fun _ _ => true) 27 37 47 4).2 0 0 = false := by
  have hout : ((min pg64.width pg64.height : ℕ) : ℚ) / 2 ≤ 47 := by
    norm_num [pg64]
  exact ⟨(claim_rings_oversize_rejects pg64 (fun _ _ => true) 27 37 47 4 hout).1,
    (claim_rings_oversize_rejects pg64 (fun _ _ => true) 27 37 47 4 hout).2 0 0
      (by norm_num [pg64]) (by norm_num [pg64])⟩

/-- C2 counterexample: a rejecting `generateGrid` call (stride 0) does mutate
the caller's grid — cell (0,0) of an all-true grid is false afterwards, so the
grid is not "left exactly as it was before the call". -/
theorem claim_reject_no_mutation_cex :
    (generateGrid pg64 (fun _ _ => true) 0 0).1 = false ∧
    (generateGrid pg64 (fun _ _ => true) 0 0).2 0 0 ≠ (fun (_ _ : ℕ) => true) 0 0 := by
  rw [generateGrid_reject pg64 (fun _ _ => true) 0 0 (Or.inl (by norm_num))]
  refine ⟨rfl, ?_⟩
  dsimp only
  rw [clearGrid_apply, if_pos ⟨by norm_num [pg64], by norm_num [pg64]⟩]
  simp

/-- C2 amended: a pattern-generation call that returns `false`
(`generateConcentricRings` with an over-large outer radius, `generateGrid`
with a stride below 1, or either generator producing zero lit cells) leaves
the caller's grid fully cleared — every in-bounds cell `false` — rather than
unchanged. -/
theorem claim_reject_leaves_grid_cleared (pg : PatternGenerator) (g : Grid)
    (spacingX spacingY : ℤ)
    (innerRadius middleRadius outerRadius targetSpacingMM : ℚ) :
    ((generateGrid pg g spacingX spacingY).1 = false →
      ∀ x y : ℕ, x < pg.width → y < pg.height →
        (generateGrid pg g spacingX spacingY).2 y x = false) ∧
    ((generateConcentricRings pg g innerRadius middleRadius outerRadius
        targetSpacingMM).1 = false →
      ∀ x y : ℕ, x < pg.width → y < pg.height →
        (generateConcentricRings pg g innerRadius middleRadius outerRadius
          targetSpacingMM).2 y x = false) := by
  constructor
  · intro hfalse x y hx hy
    by_cases hrej : spacingX < 1 ∨ spacingY < 1
    · rw [generateGrid_reject pg g _ _ hrej]
      dsimp only
      rw [clearGrid_apply, if_pos ⟨hy, hx⟩]
    · rw [generateGrid_accept pg g _ _ hrej] at hfalse ⊢
      dsimp only at hfalse ⊢
      simp only [decide_eq_false_iff_not, not_lt, Nat.le_zero] at hfalse
      rw [gridFillAll_count_fix pg.width pg.height _ _ 0 _ 0 hfalse,
        clearGrid_apply, if_pos ⟨hy, hx⟩]
  · intro hfalse x y hx hy
    by_cases hrej : ((min pg.width pg.height : ℕ) : ℚ) / 2 ≤ outerRadius
    · rw [generateConcentricRings_reject pg g _ _ _ _ hrej]
      dsimp only
      rw [clearGrid_apply, if_pos ⟨hy, hx⟩]
    · rw [generateConcentricRings_accept pg g _ _ _ _ hrej] at hfalse ⊢
      dsimp only at hfalse ⊢
      simp only [decide_eq_false_iff_not, not_lt, Nat.le_zero] at hfalse
      rw [ringsFill_count_zero _ _ _ _ _ _ _ _ _ hfalse, clearGrid_apply,
        if_pos ⟨hy, hx⟩]

/-- Witness for the amended C2: concrete rejecting calls on the 64×64
generator leave cell (0,0) of an all-true grid false. -/
theorem claim_reject_leaves_grid_cleared_witness :
    (generateGrid pg64 (fun _ _ => true) 0 0).2 0 0 = false ∧
    (generateConcentricRings pg64 (fun _ _ => true) 27 37 47 4).2 0 0 = false := by
  have h := claim_reject_leaves_grid_cleared pg64 (fun _ _ => true) 0 0 27 37 47 4
  refine ⟨h.1 ?_ 0 0 (by norm_num [pg64]) (by norm_num [pg64]),
    h.2 ?_ 0 0 (by norm_num [pg64]) (by norm_num [pg64])⟩
  · rw [generateGrid_reject pg64 (fun _ _ => true) 0 0 (Or.inl (by norm_num))]
  · rw [generateConcentricRings_reject pg64 (fun _ _ => true) 27 37 47 4
      (by norm_num [pg64])]

/-- C9: on the 64×64 generator, `generatePattern` with type
`PATTERN_CONCENTRIC_RINGS` always returns `false`: the built-in default radii
(27.0, 37.0, 47.0) have an outer radius of 47, which fails the
`outerRadius ≥ min(width,height)/2 = 32` bounds check on every call. -/
theorem claim_generatePattern_rings_false (g : Grid) (pts : List (ℤ × ℤ)) :
    (generatePattern pg64 g pts PATTERN_CONCENTRIC_RINGS).1 = false := by
  have hout : ((min pg64.width pg64.height : ℕ) : ℚ) / 2 ≤ 47 := by
    norm_num [pg64]
  have e : generatePattern pg64 g pts PATTERN_CONCENTRIC_RINGS =
      generateConcentricRings pg64 g 27 37 47 4 := rfl
  rw [e, generateConcentricRings_reject pg64 g 27 37 47 4 hout]

/-- C4: for every spacing and turns value (and every coordinate walk the
floating-point spiral can visit), the grid produced by `generateSpiral` on the
64×64 generator has the exact center cell (32, 32) lit — the skip-stride
filter never removes it. -/
theorem claim_spiral_center_lit (g : Grid) (spacingMM : ℚ) (turns : ℤ)
    (pts : List (ℤ × ℤ)) :
    (generateSpiral pg64 g spacingMM turns pts).2 32 32 = true := by
  simp only [generateSpiral]
  refine foldl_state_pres _ (fun st => st.1 32 32 = true) ?_ pts _ ?_
  · intro st p hst
    dsimp only
    split_ifs with hcond
    · show setCell st.1 p.2.toNat p.1.toNat true 32 32 = true
      rw [setCell_apply]
      split_ifs with hc2
      · rfl
      · exact hst
    · exact hst
  · show setCell (clearGrid pg64.width pg64.height g) (getCenterY pg64)
      (getCenterX pg64) true 32 32 = true
    rw [setCell_apply, if_pos ⟨rfl, rfl⟩]

/-- C6: on the 64×64 generator, `generateGrid(8, 8)` returns `true` and
lights exactly the 64 cells `(8i, 8j)` with `i, j ∈ [0, 8)`, and no other
in-bounds cell. -/
theorem claim_grid_8x8_lattice (g : Grid) (x y : Fin 64) :
    (generateGrid pg64 g 8 8).1 = true ∧
    ((generateGrid pg64 g 8 8).2 (y : ℕ) (x : ℕ) = true ↔
      ∃ i j : Fin 8, (x : ℕ) = 8 * (i : ℕ) ∧ (y : ℕ) = 8 * (j : ℕ)) := by
  have e : generateGrid pg64 g 8 8 =
      (decide (0 < (gridFillAll 64 64 7 7 0 (clearGrid 64 64 g) 0).2),
        (gridFillAll 64 64 7 7 0 (clearGrid 64 64 g) 0).1) :=
    generateGrid_accept pg64 g 8 8 (by norm_num)
  rw [e]
  constructor
  · simp only [decide_eq_true_iff]
    exact gridFillAll_count_lt 64 64 7 7 0 _ 0 (by norm_num) (by norm_num)
  · dsimp only
    rw [gridFillAll_apply]
    by_cases hc : 0 ≤ (y : ℕ) ∧ (y : ℕ) < 64 ∧ (7 + 1) ∣ ((y : ℕ) - 0) ∧
        (x : ℕ) < 64 ∧ (7 + 1) ∣ (x : ℕ)
    · rw [if_pos hc]
      obtain ⟨-, hy64, ⟨ky, hky⟩, hx64, ⟨kx, hkx⟩⟩ := hc
      rw [Nat.sub_zero] at hky
      refine iff_of_true rfl ⟨⟨kx, by omega⟩, ⟨ky, by omega⟩, ?_, ?_⟩
      · show (x : ℕ) = 8 * kx
        omega
      · show (y : ℕ) = 8 * ky
        omega
    · rw [if_neg hc, clearGrid_apply, if_pos ⟨y.isLt, x.isLt⟩]
      refine iff_of_false (by simp) ?_
      rintro ⟨i, j, hi, hj⟩
      exact hc ⟨Nat.zero_le _, y.isLt, ⟨(j : ℕ), by omega⟩, x.isLt, ⟨(i : ℕ), by omega⟩⟩

/-- C1: `setLED(x, y, color)` with `x∉[0,64)`, `y∉[0,64)` or `color∉[0,7]`
returns `false` and performs no state change — the dirty flag and every
output-line level are exactly as before; with all three in range it returns
`true`. -/
theorem claim_setLED_validation (m : LEDMatrix.State) (x y color : ℤ) :
    (¬(0 ≤ x ∧ x < 64 ∧ 0 ≤ y ∧ y < 64 ∧ 0 ≤ color ∧ color ≤ 7) →
      LEDMatrix.setLED m x y color = (false, m)) ∧
    ((0 ≤ x ∧ x < 64 ∧ 0 ≤ y ∧ y < 64 ∧ 0 ≤ color ∧ color ≤ 7) →
      (LEDMatrix.setLED m x y color).1 = true) := by
  have hcond : (!(LEDMatrix.isValidCoordinate x y) || !(LEDMatrix.isValidColor color)) = true ↔
      ¬(0 ≤ x ∧ x < 64 ∧ 0 ≤ y ∧ y < 64 ∧ 0 ≤ color ∧ color ≤ 7) := by
    simp only [LEDMatrix.isValidCoordinate, LEDMatrix.isValidColor,
      MATRIX_WIDTH, MATRIX_HEIGHT, COLOR_MAX, Bool.or_eq_true,
      Bool.not_eq_true', decide_eq_false_iff_not]
    push_cast
    constructor
    · rintro (h | h) hall
      · exact h ⟨hall.1, hall.2.1, hall.2.2.1, hall.2.2.2.1⟩
      · exact h ⟨hall.2.2.2.2.1, hall.2.2.2.2.2⟩
    · intro h
      by_cases hc : 0 ≤ x ∧ x < 64 ∧ 0 ≤ y ∧ y < 64
      · exact Or.inr fun hcol => h ⟨hc.1, hc.2.1, hc.2.2.1, hc.2.2.2, hcol.1, hcol.2⟩
      · exact Or.inl hc
  constructor
  · intro h
    rw [LEDMatrix.setLED, if_pos (hcond.mpr h)]
  · intro h
    rw [LEDMatrix.setLED,
      if_neg (fun hc => (hcond.mp hc) h)]

/-- Witness for C1: an out-of-range x leaves a concrete state untouched and
returns false; an in-range call returns true. -/
theorem claim_setLED_validation_witness :
    (LEDMatrix.setLED ⟨⟨0, 0, 0, 0, 0, 0, 0, 0, 0, 0, 0, 0, 0, 0⟩, true⟩ 64 0 0 =
      (false, ⟨⟨0, 0, 0, 0, 0, 0, 0, 0, 0, 0, 0, 0, 0, 0⟩, true⟩)) ∧
    (LEDMatrix.setLED ⟨⟨0, 0, 0, 0, 0, 0, 0, 0, 0, 0, 0, 0, 0, 0⟩, true⟩ 3 4 5).1 = true := by
  exact ⟨(claim_setLED_validation _ 64 0 0).1 (by decide),
    (claim_setLED_validation _ 3 4 5).2 (by decide)⟩

/-- C7: after initialization, for every row `y ∈ [0,64)` the row-address
cache entry for `y` holds the 5-bit binary encoding of `y mod 32`: bit `k` of
the entry equals bit `k` of `y mod 32` for `k ∈ [0,5)`. -/
theorem claim_row_address_cache (y : Fin 64) (k : Fin 5) :
    LEDMatrix.rowAddressCache (y : ℕ) (k : ℕ) =
      if Nat.testBit ((y : ℕ) % 32) (k : ℕ) then 1 else 0 := by
  revert k
  revert y
  decide

/-- C8: in the Active state, once `idleTimeout` milliseconds have elapsed
since the last activity, the next `update()` transitions to Idle and clears
the display (the transition and clear happen on exactly that call); every
`update()` in the Idle state leaves the state Idle — `update()` never
transitions Idle back to Active. -/
theorem claim_idle_timeout_transition (s : IdleManager.State) (now : ℕ) :
    (s.idleMode = false →
      s.idleTimeout ≤ usub32 now s.lastActivityTime →
      (IdleManager.update s now).idleMode = true ∧
      (IdleManager.update s now).matrix = LEDMatrix.clearDisplay s.matrix) ∧
    (s.idleMode = true → (IdleManager.update s now).idleMode = true) := by
  constructor
  · intro hact htime
    have h1 : IdleManager.update s now = IdleManager.enterIdleMode s now := by
      rw [IdleManager.update]
      simp [hact, IdleManager.isIdleTimeoutExceeded, htime]
    have h2 : IdleManager.enterIdleMode s now =
        { s with idleMode := true, matrix := LEDMatrix.clearDisplay s.matrix,
                 lastBlinkTime := now } := by
      rw [IdleManager.enterIdleMode]
      simp [hact]
    rw [h1, h2]
    exact ⟨rfl, rfl⟩
  · intro hidle
    rw [IdleManager.update]
    simp only [hidle, if_true]
    split_ifs with hblink
    · simp only [IdleManager.blinkHeartbeat]
      exact hidle
    · exact hidle

/-- Witness for C8: a concrete Active state past its timeout transitions to
Idle with the display cleared, and a concrete Idle state stays Idle. -/
theorem claim_idle_timeout_transition_witness :
    ((IdleManager.update
        ⟨⟨⟨0, 0, 0, 0, 0, 0, 0, 0, 0, 0, 0, 0, 0, 0⟩, true⟩, 100, 10, 5,
          false, 0, 0⟩ 100).idleMode = true ∧
      (IdleManager.update
        ⟨⟨⟨0, 0, 0, 0, 0, 0, 0, 0, 0, 0, 0, 0, 0, 0⟩, true⟩, 100, 10, 5,
          false, 0, 0⟩ 100).matrix =
        LEDMatrix.clearDisplay ⟨⟨0, 0, 0, 0, 0, 0, 0, 0, 0, 0, 0, 0, 0, 0⟩, true⟩) ∧
    (IdleManager.update
        ⟨⟨⟨0, 0, 0, 0, 0, 0, 0, 0, 0, 0, 0, 0, 0, 0⟩, true⟩, 100, 10, 5,
          true, 0, 0⟩ 3).idleMode = true := by
  constructor
  · exact (claim_idle_timeout_transition _ 100).1 rfl (by decide)
  · exact (claim_idle_timeout_transition _ 3).2 rfl

namespace CameraManager

theorem readyWait_allBusy (busy : ℕ → Bool) (hbusy : ∀ t, busy t = true)
    (timeout start : ℕ) :
    ∀ elapsed, (readyWait busy timeout start elapsed).1 = false
  | elapsed => by
    rw [readyWait, hbusy (start + elapsed), if_pos rfl]
    by_cases ht : timeout < elapsed + 10
    · rw [if_pos ht]
    · rw [if_neg ht]
      exact readyWait_allBusy busy hbusy timeout start (elapsed + 10)
  termination_by elapsed => timeout + 10 - elapsed
  decreasing_by omega

end CameraManager

/-- C3: `triggerCamera(waitForReady=true)` on an enabled camera with the
ready handshake compiled in, when the busy signal stays busy past the
configured timeout, returns `false` and latches the timeout error code. -/
theorem claim_camera_ready_timeout (busy : ℕ → Bool) (readyTimeout : ℕ)
    (s : CameraManager.State) (clock : ℕ)
    (hen : s.enabled = true) (hbusy : ∀ t, busy t = true) :
    (CameraManager.triggerCamera busy true readyTimeout s clock true).1 = false ∧
    (CameraManager.triggerCamera busy true readyTimeout s clock
      true).2.1.errorCode = CAMERA_ERROR_TIMEOUT := by
  simp [CameraManager.triggerCamera, CameraManager.sendTriggerPulse, hen,
    CameraManager.readyWait_allBusy busy hbusy readyTimeout]

/-- Witness for C3: the constructor-default (enabled) camera with an
always-busy line times out. -/
theorem claim_camera_ready_timeout_witness :
    (CameraManager.triggerCamera (fun _ => true) true 5000
      CameraManager.initialState 0 true).1 = false ∧
    (CameraManager.triggerCamera (fun _ => true) true 5000
      CameraManager.initialState 0 true).2.1.errorCode = CAMERA_ERROR_TIMEOUT :=
  claim_camera_ready_timeout (fun _ => true) 5000 CameraManager.initialState 0
    rfl (fun _ => rfl)

/-- C10: `triggerCamera` and `testTrigger` reset the latched error code to
none as their first action — even when the camera is disabled — so the
result of either call is independent of any previously latched error, and a
disabled camera reads back the `none` error code after either call. -/
theorem claim_error_code_reset (busy : ℕ → Bool) (useReadySignal : Bool)
    (readyTimeout : ℕ) (s : CameraManager.State) (clock : ℕ)
    (waitForReady : Bool) (e : ℕ) (pw : ℤ) :
    CameraManager.triggerCamera busy useReadySignal readyTimeout
        { s with errorCode := e } clock waitForReady =
      CameraManager.triggerCamera busy useReadySignal readyTimeout s clock
        waitForReady ∧
    CameraManager.testTrigger { s with errorCode := e } clock pw =
      CameraManager.testTrigger s clock pw ∧
    (s.enabled = false →
      (CameraManager.triggerCamera busy useReadySignal readyTimeout s clock
        waitForReady).2.1.errorCode = CAMERA_ERROR_NONE ∧
      (CameraManager.testTrigger s clock pw).2.1.errorCode = CAMERA_ERROR_NONE) := by
  refine ⟨rfl, rfl, fun hdis => ?_⟩
  constructor
  · simp [CameraManager.triggerCamera, hdis]
  · simp [CameraManager.testTrigger, hdis]

/-- Witness for C10: a disabled camera with a stale latched error reads back
`none` after `testTrigger`, and the stale error does not influence the call. -/
theorem claim_error_code_reset_witness :
    CameraManager.testTrigger
        { { CameraManager.initialState with enabled := false } with
          errorCode := 2 } 0 (-1) =
      CameraManager.testTrigger
        { CameraManager.initialState with enabled := false } 0 (-1) ∧
    (CameraManager.triggerCamera (fun _ => false) false 0
      { CameraManager.initialState with enabled := false } 0
      false).2.1.errorCode = CAMERA_ERROR_NONE := by
  have h := claim_error_code_reset (fun _ => false) false 0
    { CameraManager.initialState with enabled := false } 0 false 2 (-1)
  exact ⟨h.2.1, (h.2.2 rfl).1⟩

end Ptycography
